import Mathlib

/-!
# In-memory table store (`main.go`)

A shallow embedding of the table store of `main.go` and a verification of its
operations `CreateTable`, `DeleteTable`, `AddRecord`, `PrintRecords`,
`FilterRecord` and `UpdateTable`.

Modelling conventions.

* A Go `map[string]T` is a function `String → Option T`: `m[k]` with the
  comma-ok form is the application `m k`, an assignment `m[k] = v` and
  `delete(m, k)` are pointwise updates.  The `Tables` map of a store is an
  allocated map, as `main` builds it with `make`.
* A Go `interface{}` value is a `Value`: the nil interface, a `string`, an
  `int`, a `float64`, a value of another comparable dynamic type (represented by
  `bool`), or a value of a dynamic type that Go cannot compare (a slice, a map,
  a function), given by the name of its type and an identity.  `==` on interface
  values is `Value.goEq`: two values are equal when they have the same dynamic
  type and equal values, a NaN equals nothing, and comparing two values of the
  same uncomparable type is a run-time panic.  The single-value index expression
  `record[k]` yields the nil interface for an absent key.
* Go's `len` of a string is its length in bytes, `String.utf8ByteSize`.
* Go's `int` is modelled by `Int`; the code only compares integers, it performs
  no arithmetic on them.
* A method with receiver `*Database` that returns `error` becomes a function
  returning a `Result`: the store after the call, the records written to the
  output by `fmt.Println` (in order), the returned error (`none` for `nil`), and
  whether the call ended in a run-time panic instead of returning (then no error
  was returned and `out` holds what was printed before the panic).
-/

namespace SQLDB

/-- The Go type `ColumnType` is an `int`. -/
abbrev ColumnType := Int

/-- Constant `String ColumnType = iota`. -/
def ColumnType.String : ColumnType := 0

/-- Constant `Int`, the second `iota` value. -/
def ColumnType.Int : ColumnType := 1

/-- Go struct `Column`. -/
structure Column where
  Name : String
  DataType : ColumnType
  MaxStringLength : Int
  MaxIntValue : Int
  deriving DecidableEq, Repr

/-- A Go `float64` as far as `==` sees it: NaN, an infinity, or a finite number
(the two zeros are the same number). -/
inductive Float64 where
  | nan
  | inf (negative : Bool)
  | finite (q : ℚ)
  deriving DecidableEq, Repr

/-- Go's `==` on two `float64` values: a NaN equals nothing, itself included. -/
def Float64.eq : Float64 → Float64 → Bool
  | Float64.nan, _ => false
  | _, Float64.nan => false
  | a, b => decide (a = b)

/-- A dynamically typed Go value (`interface{}`). -/
inductive Value where
  | nil
  | str (s : String)
  | int (i : Int)
  | bool (b : Bool)
  | float (f : Float64)
  | uncomparable (typ : String) (ident : Nat)
  deriving DecidableEq, Repr

/-- Whether the value is not of a dynamic type that Go cannot compare. -/
def Value.comparable : Value → Bool
  | Value.uncomparable _ _ => false
  | _ => true

/-- Go's `==` on two interface values: `none` is the run-time panic raised when
both have the same uncomparable dynamic type; values of different dynamic types
are unequal; the nil interface equals only itself. -/
def Value.goEq : Value → Value → Option Bool
  | Value.nil, Value.nil => some true
  | Value.str a, Value.str b => some (decide (a = b))
  | Value.int a, Value.int b => some (decide (a = b))
  | Value.bool a, Value.bool b => some (decide (a = b))
  | Value.float a, Value.float b => some (Float64.eq a b)
  | Value.uncomparable t _, Value.uncomparable u _ => if t = u then none else some false
  | _, _ => some false

/-- A record, `map[string]interface{}`. -/
abbrev Record := String → Option Value

/-- Go struct `Table`. -/
structure Table where
  Name : String
  Columns : List Column
  Records : List Record

/-- Go struct `Database`. -/
structure Database where
  Tables : String → Option Table

/-- What a call leaves behind: the store, the records printed, the error, and
whether the call ended in a run-time panic instead of returning. -/
structure Result where
  db : Database
  out : List Record
  err : Option String
  panicked : Bool := false

/-- The index expression `record[k]` in its single-value form. -/
def Record.index (record : Record) (k : String) : Value :=
  match record k with
  | some v => v
  | none => Value.nil

/-- The record with no key, `map[string]interface{}{}`. -/
def Record.empty : Record := fun _ => none

/-- The assignment `m[k] = v` on a map. -/
def mapSet {α : Type} (m : String → Option α) (k : String) (v : α) : String → Option α :=
  fun j => if j = k then some v else m j

/-- The statement `delete(m, k)` on a map. -/
def mapDelete {α : Type} (m : String → Option α) (k : String) : String → Option α :=
  fun j => if j = k then none else m j

/-- The store `Database{Tables: make(map[string]Table)}`. -/
def Database.empty : Database := { Tables := fun _ => none }

/-- Method `CreateTable` (main.go lines 32-42). -/
def CreateTable (db : Database) (name : String) (columns : List Column) : Result :=
  match db.Tables name with
  | some _ => { db := db, out := [], err := some "table already exists" }
  | none =>
    { db := { Tables := mapSet db.Tables name { Name := name, Columns := columns, Records := [] } },
      out := [], err := none }

/-- Method `DeleteTable` (main.go lines 44-50). -/
def DeleteTable (db : Database) (name : String) : Result :=
  match db.Tables name with
  | none => { db := db, out := [], err := some "table not exists" }
  | some _ => { db := { Tables := mapDelete db.Tables name }, out := [], err := none }

/-- The body of the loop over the columns in `AddRecord` (main.go lines 59-81):
`none` when the iteration falls through to the next column, `some e` when it
returns the error `e`. -/
def AddRecord.checkColumn (col : Column) (record : Record) : Option String :=
  match record col.Name with
  | none => none
  | some value =>
    if col.DataType = ColumnType.String then
      match value with
      | Value.str strValue =>
        if col.MaxStringLength > 0 ∧ (strValue.utf8ByteSize : Int) > col.MaxStringLength then
          some ("column " ++ col.Name ++ " exceeds maximum length of " ++ toString col.MaxStringLength)
        else none
      | _ => some ("column " ++ col.Name ++ " expects a string value")
    else if col.DataType = ColumnType.Int then
      match value with
      | Value.int intValue =>
        if intValue > col.MaxIntValue then
          some ("column " ++ col.Name ++ " is below the minimum value of " ++ toString col.MaxIntValue)
        else none
      | _ => some ("column " ++ col.Name ++ " expects an int value")
    else none

/-- The loop `for _, col := range table.Columns` of `AddRecord` (main.go lines
58-82): the error of the first iteration that returns, `none` when the loop
runs to its end. -/
def AddRecord.loop : List Column → Record → Option String
  | [], _ => none
  | col :: rest, record =>
    match AddRecord.checkColumn col record with
    | some e => some e
    | none => AddRecord.loop rest record

/-- Method `AddRecord` (main.go lines 52-86). -/
def AddRecord (db : Database) (name : String) (record : Record) : Result :=
  match db.Tables name with
  | none => { db := db, out := [], err := some "table already exists" }
  | some table =>
    match AddRecord.loop table.Columns record with
    | some e => { db := db, out := [], err := some e }
    | none =>
      { db := { Tables := mapSet db.Tables name { table with Records := table.Records ++ [record] } },
        out := [], err := none }

/-- Method `PrintRecords` (main.go lines 88-97). -/
def PrintRecords (db : Database) (name : String) : Result :=
  match db.Tables name with
  | none => { db := db, out := [], err := some "table not exists" }
  | some table => { db := db, out := table.Records, err := none }

/-- The loop `for _, record := range table.Records` of `FilterRecord` (main.go
lines 105-109): the records printed, in order, and whether a comparison
`record[columnName] == value` panicked, which ends the loop. -/
def FilterRecord.loop (columnName : String) (value : Value) : List Record → List Record × Bool
  | [] => ([], false)
  | record :: rest =>
    match Value.goEq (record.index columnName) value with
    | none => ([], true)
    | some true =>
      let r := FilterRecord.loop columnName value rest
      (record :: r.1, r.2)
    | some false => FilterRecord.loop columnName value rest

/-- Method `FilterRecord` (main.go lines 99-111). -/
def FilterRecord (db : Database) (tableName : String) (columnName : String) (value : Value) : Result :=
  match db.Tables tableName with
  | none => { db := db, out := [], err := some "table does not exist" }
  | some table =>
    { db := db, out := (FilterRecord.loop columnName value table.Records).1,
      err := none, panicked := (FilterRecord.loop columnName value table.Records).2 }

/-- Method `UpdateTable` (main.go lines 113-121). -/
def UpdateTable (db : Database) (name : String) (columns : List Column) : Result :=
  match db.Tables name with
  | none => { db := db, out := [], err := some "table does not exist" }
  | some table =>
    { db := { Tables := mapSet db.Tables name { table with Columns := columns } },
      out := [], err := none }

/-- The check a column puts on a value stored under its name, as the
specification words it: a String column wants a string within the length limit
(when the limit is positive), an Int column wants an integer not above
`MaxIntValue`. -/
def PassesCheck (col : Column) (v : Value) : Prop :=
  (col.DataType = ColumnType.String →
    ∃ s, v = Value.str s ∧ (¬ col.MaxStringLength > 0 ∨ (s.utf8ByteSize : Int) ≤ col.MaxStringLength)) ∧
  (col.DataType = ColumnType.Int → ∃ i, v = Value.int i ∧ i ≤ col.MaxIntValue)

/-- A record is valid against a column list when every column whose name is a
key of the record accepts the value stored under that name. -/
def ValidRecord (columns : List Column) (record : Record) : Prop :=
  ∀ col ∈ columns, ∀ v, record col.Name = some v → PassesCheck col v

/-- Calling `AddRecord` on table `name` for each record of a list, in order:
the final store and the error of each call. -/
def addRecords (db : Database) (name : String) : List Record → Database × List (Option String)
  | [] => (db, [])
  | record :: rest =>
    let r := AddRecord db name record
    let s := addRecords r.db name rest
    (s.1, r.err :: s.2)

/-- A map literal `map[string]interface{}{k1: v1, ...}`. -/
def Record.ofList (entries : List (String × Value)) : Record :=
  fun k => entries.lookup k

/-- The column list `columns` of `main` (main.go lines 127-130). -/
def mainColumns : List Column :=
  [ { Name := "id", DataType := ColumnType.Int, MaxStringLength := 1024, MaxIntValue := 20 },
    { Name := "value", DataType := ColumnType.String, MaxStringLength := 1024, MaxIntValue := 20 } ]

/-- The store of `main` after `db.CreateTable("table1", columns)`. -/
def mainDb : Database := (CreateTable Database.empty "table1" mainColumns).db

/-- The first record `main` inserts (main.go lines 138-141). -/
def mainRecord1 : Record := Record.ofList [("id", Value.int 1), ("value", Value.str "hello")]

/-- The second record `main` inserts (main.go lines 148-151). -/
def mainRecord2 : Record := Record.ofList [("id", Value.int 2), ("value", Value.str "world")]

/-- The store of `main` after its two `AddRecord` calls (main.go line 153). -/
def mainDb2 : Database := (addRecords mainDb "table1" [mainRecord1, mainRecord2]).1

/-- Column list of the filter example: an Int column `id` and a String column
`value`, both without an effective limit for the example's records. -/
def filterColumns : List Column :=
  [ { Name := "id", DataType := ColumnType.Int, MaxStringLength := 0, MaxIntValue := 100 },
    { Name := "value", DataType := ColumnType.String, MaxStringLength := 0, MaxIntValue := 0 } ]

/-- Record `{id: 1, value: "a"}`. -/
def filterRecordA : Record := Record.ofList [("id", Value.int 1), ("value", Value.str "a")]

/-- Record `{id: 2, value: "b"}`. -/
def filterRecordB : Record := Record.ofList [("id", Value.int 2), ("value", Value.str "b")]

/-- Record `{id: 1, value: "c"}`. -/
def filterRecordC : Record := Record.ofList [("id", Value.int 1), ("value", Value.str "c")]

/-- The store holding table `T` with the three records of the filter example,
built by `CreateTable` and three `AddRecord` calls. -/
def filterDb : Database :=
  (addRecords (CreateTable Database.empty "T" filterColumns).db "T"
    [filterRecordA, filterRecordB, filterRecordC]).1

/-- Table `T` of the filter example. -/
def filterTable : Table :=
  { Name := "T", Columns := filterColumns,
    Records := [filterRecordA, filterRecordB, filterRecordC] }

/-- Record `{value: "a"}`, which has no entry for `id`. -/
def valueOnlyRecord : Record := Record.ofList [("value", Value.str "a")]

/-- The store holding table `T` with the single record `{value: "a"}`. -/
def valueOnlyDb : Database :=
  (AddRecord (CreateTable Database.empty "T" filterColumns).db "T" valueOnlyRecord).db

/-- Record `{id: 1, tags: []string{...}}`: the key `tags`, which `filterColumns`
does not declare, holds a slice. -/
def sliceRecord : Record :=
  Record.ofList [("id", Value.int 1), ("tags", Value.uncomparable "[]string" 0)]

/-- The store holding table `T` with the single record `sliceRecord`, built by
`CreateTable` and `AddRecord`. -/
def sliceDb : Database :=
  (AddRecord (CreateTable Database.empty "T" filterColumns).db "T" sliceRecord).db

/-- The column list `newColumns` of `main` (main.go lines 166-170). -/
def mainNewColumns : List Column :=
  [ { Name := "id", DataType := ColumnType.Int, MaxStringLength := 1024, MaxIntValue := 20 },
    { Name := "name", DataType := ColumnType.String, MaxStringLength := 1024, MaxIntValue := 20 },
    { Name := "email", DataType := ColumnType.String, MaxStringLength := 1024, MaxIntValue := 20 } ]

/-- A column list with a repeated column name and negative limits. -/
def oddColumns : List Column :=
  [ { Name := "k", DataType := ColumnType.String, MaxStringLength := -1, MaxIntValue := -5 },
    { Name := "k", DataType := ColumnType.Int, MaxStringLength := 0, MaxIntValue := -7 } ]

/-- A call of one of the six methods of `Database`, with its arguments. -/
inductive Op where
  | createTable (name : String) (columns : List Column)
  | deleteTable (name : String)
  | addRecord (name : String) (record : Record)
  | updateTable (name : String) (columns : List Column)
  | printRecords (name : String)
  | filterRecord (tableName columnName : String) (value : Value)

/-- Performing a call on a store. -/
def Op.apply (db : Database) : Op → Result
  | Op.createTable name columns => CreateTable db name columns
  | Op.deleteTable name => DeleteTable db name
  | Op.addRecord name record => AddRecord db name record
  | Op.updateTable name columns => UpdateTable db name columns
  | Op.printRecords name => PrintRecords db name
  | Op.filterRecord tableName columnName value => FilterRecord db tableName columnName value

/-- The store after a sequence of calls, each one made on the store the previous
one left, whether it failed or not. -/
def runOps (db : Database) : List Op → Database
  | [] => db
  | op :: rest => runOps (op.apply db).db rest

/-- The calls of `main` in order, continued past the failing `UpdateTable`
(main.go lines 132-178). -/
def mainOps : List Op :=
  [ Op.createTable "table1" mainColumns,
    Op.addRecord "table1" mainRecord1,
    Op.addRecord "table1" mainRecord2,
    Op.printRecords "table1",
    Op.updateTable "users" mainNewColumns,
    Op.deleteTable "users" ]

/-- A column list that the records of `main` violate: `id` is a String column
of at most one byte. -/
def stringIdColumns : List Column :=
  [ { Name := "id", DataType := ColumnType.String, MaxStringLength := 1, MaxIntValue := 0 } ]

/-- The String column `value` with `MaxStringLength` 5. -/
def lengthColumn : Column :=
  { Name := "value", DataType := ColumnType.String, MaxStringLength := 5, MaxIntValue := 0 }

/-- The store holding the empty table `T` whose only column is `lengthColumn`. -/
def lengthDb : Database := (CreateTable Database.empty "T" [lengthColumn]).db

/-- The Int column `id` with `MaxIntValue` 20, as in `main`. -/
def idColumn : Column :=
  { Name := "id", DataType := ColumnType.Int, MaxStringLength := 1024, MaxIntValue := 20 }

/-- A column list with two columns named `k`, a String column of at most one
byte and an Int column. -/
def conflictColumns : List Column :=
  [ { Name := "k", DataType := ColumnType.String, MaxStringLength := 1, MaxIntValue := 0 },
    { Name := "k", DataType := ColumnType.Int, MaxStringLength := 0, MaxIntValue := 100 } ]

/-- The store holding the empty table `T` with the columns `conflictColumns`. -/
def conflictDb : Database := (CreateTable Database.empty "T" conflictColumns).db

/-- The failure of a column's check on a value with the error it is reported by:
type mismatch (`expects a string value`, `expects an int value`), length
exceeded (`exceeds maximum length of`) or value exceeded (`is below the minimum
value of`), each naming the column and, for the last two, its limit. -/
def FailsWith (col : Column) (v : Value) (e : String) : Prop :=
  (col.DataType = ColumnType.String ∧ (∀ s, v ≠ Value.str s) ∧
    e = "column " ++ col.Name ++ " expects a string value") ∨
  (col.DataType = ColumnType.String ∧ ∃ s, v = Value.str s ∧ col.MaxStringLength > 0 ∧
    (s.utf8ByteSize : Int) > col.MaxStringLength ∧
    e = "column " ++ col.Name ++ " exceeds maximum length of " ++ toString col.MaxStringLength) ∨
  (col.DataType = ColumnType.Int ∧ (∀ i, v ≠ Value.int i) ∧
    e = "column " ++ col.Name ++ " expects an int value") ∨
  (col.DataType = ColumnType.Int ∧ ∃ i, v = Value.int i ∧ i > col.MaxIntValue ∧
    e = "column " ++ col.Name ++ " is below the minimum value of " ++ toString col.MaxIntValue)

/-- The first record of `main` with two more keys, `extra` and `note`, that no
column of `table1` declares. -/
def extraRecord : Record :=
  Record.ofList [("id", Value.int 1), ("value", Value.str "hello"),
    ("extra", Value.bool true), ("note", Value.nil)]

/-! ## Lemmas on the validation loop -/

theorem columnType_String_ne_Int : ColumnType.String ≠ ColumnType.Int := by decide

theorem checkColumn_absent (col : Column) (record : Record) (h : record col.Name = none) :
    AddRecord.checkColumn col record = none := by
  simp [AddRecord.checkColumn, h]

theorem checkColumn_eq_none_iff (col : Column) (record : Record) :
    AddRecord.checkColumn col record = none ↔
      ∀ v, record col.Name = some v → PassesCheck col v := by
  unfold AddRecord.checkColumn PassesCheck
  cases hv : record col.Name with
  | none => simp
  | some value =>
    simp only [Option.some.injEq, forall_eq']
    by_cases hs : col.DataType = ColumnType.String
    · have hi : col.DataType ≠ ColumnType.Int := by
        rw [hs]; exact columnType_String_ne_Int
      cases value <;> simp [hs, hi, columnType_String_ne_Int]
      omega
    · by_cases hi : col.DataType = ColumnType.Int
      · cases value <;> simp [hi, columnType_String_ne_Int.symm]
      · simp [hs, hi]

theorem loop_eq_none_iff (columns : List Column) (record : Record) :
    AddRecord.loop columns record = none ↔ ValidRecord columns record := by
  induction columns with
  | nil => simp [AddRecord.loop, ValidRecord]
  | cons col rest ih =>
    unfold ValidRecord at ih ⊢
    simp only [AddRecord.loop, List.mem_cons, forall_eq_or_imp]
    rw [← ih, ← checkColumn_eq_none_iff]
    cases h : AddRecord.checkColumn col record <;> simp

theorem loop_empty (columns : List Column) : AddRecord.loop columns Record.empty = none := by
  rw [loop_eq_none_iff]
  intro col _ v hv
  simp [Record.empty] at hv

theorem AddRecord_present (db : Database) (name : String) (table : Table) (record : Record)
    (h : db.Tables name = some table) :
    AddRecord db name record =
      match AddRecord.loop table.Columns record with
      | some e => { db := db, out := [], err := some e }
      | none =>
        { db := { Tables := mapSet db.Tables name { table with Records := table.Records ++ [record] } },
          out := [], err := none } := by
  simp [AddRecord, h]

theorem AddRecord_err_present (db : Database) (name : String) (table : Table) (record : Record)
    (h : db.Tables name = some table) :
    (AddRecord db name record).err = AddRecord.loop table.Columns record := by
  rw [AddRecord_present db name table record h]
  cases AddRecord.loop table.Columns record <;> rfl

theorem loop_eq_none_of_forall (columns : List Column) (record : Record)
    (h : ∀ col ∈ columns, AddRecord.checkColumn col record = none) :
    AddRecord.loop columns record = none := by
  induction columns with
  | nil => rfl
  | cons col rest ih =>
    simp only [AddRecord.loop, h col (List.mem_cons_self _ _)]
    exact ih (fun c hc => h c (List.mem_cons_of_mem _ hc))

theorem loop_append_of_pass (pre rest : List Column) (record : Record)
    (h : ∀ col ∈ pre, AddRecord.checkColumn col record = none) :
    AddRecord.loop (pre ++ rest) record = AddRecord.loop rest record := by
  induction pre with
  | nil => rfl
  | cons col pre ih =>
    simp only [List.cons_append, AddRecord.loop, h col (List.mem_cons_self _ _)]
    exact ih (fun c hc => h c (List.mem_cons_of_mem _ hc))

theorem loop_eq_some_split (columns : List Column) (record : Record) (e : String)
    (h : AddRecord.loop columns record = some e) :
    ∃ pre col post, columns = pre ++ col :: post ∧
      (∀ c ∈ pre, AddRecord.checkColumn c record = none) ∧
      AddRecord.checkColumn col record = some e := by
  induction columns with
  | nil => simp [AddRecord.loop] at h
  | cons col rest ih =>
    cases hc : AddRecord.checkColumn col record with
    | some e1 =>
      simp only [AddRecord.loop, hc, Option.some.injEq] at h
      subst h
      exact ⟨[], col, rest, rfl, by simp, hc⟩
    | none =>
      simp only [AddRecord.loop, hc] at h
      obtain ⟨pre, c, post, hsplit, hpre, hfail⟩ := ih h
      refine ⟨col :: pre, c, post, by rw [hsplit]; rfl, ?_, hfail⟩
      intro c1 hc1
      rcases List.mem_cons.mp hc1 with rfl | hmem
      · exact hc
      · exact hpre c1 hmem

theorem loop_only_entry (columns : List Column) (c : Column) (record : Record)
    (hc : c ∈ columns) (honly : ∀ col ∈ columns, col ≠ c → record col.Name = none) :
    AddRecord.loop columns record = AddRecord.checkColumn c record := by
  obtain ⟨pre, post, hsplit⟩ := List.append_of_mem hc
  cases hcheck : AddRecord.checkColumn c record with
  | none =>
    apply loop_eq_none_of_forall
    intro col hcol
    by_cases heq : col = c
    · rw [heq]; exact hcheck
    · exact checkColumn_absent col record (honly col hcol heq)
  | some e =>
    rw [hsplit]
    have hfirst : ∃ pre1 post1, columns = pre1 ++ c :: post1 ∧ c ∉ pre1 := by
      clear hsplit hcheck honly
      induction columns with
      | nil => simp at hc
      | cons col rest ih =>
        by_cases heq : col = c
        · exact ⟨[], rest, by rw [heq]; rfl, by simp⟩
        · have hrest : c ∈ rest := by
            rcases List.mem_cons.mp hc with h1 | h1
            · exact absurd h1.symm heq
            · exact h1
          obtain ⟨pre1, post1, hs, hn⟩ := ih hrest
          refine ⟨col :: pre1, post1, by rw [hs]; rfl, ?_⟩
          intro hmem
          rcases List.mem_cons.mp hmem with h1 | h1
          · exact heq h1.symm
          · exact hn h1
    obtain ⟨pre1, post1, hs1, hn1⟩ := hfirst
    rw [← hsplit, hs1, loop_append_of_pass pre1 (c :: post1) record]
    · simp [AddRecord.loop, hcheck]
    · intro col hcol
      have hne : col ≠ c := fun heq => hn1 (heq ▸ hcol)
      exact checkColumn_absent col record
        (honly col (by rw [hs1]; exact List.mem_append_left _ hcol) hne)

theorem checkColumn_congr (col : Column) (r r1 : Record) (h : r col.Name = r1 col.Name) :
    AddRecord.checkColumn col r = AddRecord.checkColumn col r1 := by
  unfold AddRecord.checkColumn
  rw [h]

theorem loop_congr (columns : List Column) (r r1 : Record)
    (h : ∀ col ∈ columns, r col.Name = r1 col.Name) :
    AddRecord.loop columns r = AddRecord.loop columns r1 := by
  induction columns with
  | nil => rfl
  | cons col rest ih =>
    simp only [AddRecord.loop, checkColumn_congr col r r1 (h col (List.mem_cons_self _ _))]
    rw [ih (fun c hc => h c (List.mem_cons_of_mem _ hc))]

theorem checkColumn_eq_some_iff (col : Column) (record : Record) (e : String) :
    AddRecord.checkColumn col record = some e ↔
      ∃ v, record col.Name = some v ∧ FailsWith col v e := by
  unfold AddRecord.checkColumn FailsWith
  cases hv : record col.Name with
  | none => simp
  | some value =>
    simp only [Option.some.injEq, exists_eq_left']
    by_cases hs : col.DataType = ColumnType.String
    · have hi : col.DataType ≠ ColumnType.Int := by
        rw [hs]; exact columnType_String_ne_Int
      cases value <;>
        simp [hs, columnType_String_ne_Int, columnType_String_ne_Int.symm, eq_comm, and_assoc]
    · by_cases hi : col.DataType = ColumnType.Int
      · cases value <;>
          simp [hi, columnType_String_ne_Int, columnType_String_ne_Int.symm, eq_comm, and_assoc]
      · simp [hs, hi]

/-! ## AddRecord -/

/-- C1: on a present table `AddRecord` succeeds exactly when every column whose
name is a key of the record accepts the record's value under that name (a String
column: a string within a positive length limit; an Int column: an integer at
most `MaxIntValue`); columns absent from the record impose nothing, so the empty
record is accepted. -/
theorem AddRecord_succeeds_iff (db : Database) (name : String) (table : Table) (record : Record)
    (h : db.Tables name = some table) :
    ((AddRecord db name record).err = none ↔
      ∀ col ∈ table.Columns, ∀ v, record col.Name = some v →
        (col.DataType = ColumnType.String →
          ∃ s, v = Value.str s ∧
            (¬ col.MaxStringLength > 0 ∨ (s.utf8ByteSize : Int) ≤ col.MaxStringLength)) ∧
        (col.DataType = ColumnType.Int → ∃ i, v = Value.int i ∧ i ≤ col.MaxIntValue)) ∧
    (AddRecord db name Record.empty).err = none := by
  constructor
  · rw [AddRecord_present db name table record h]
    have := loop_eq_none_iff table.Columns record
    unfold ValidRecord PassesCheck at this
    rw [← this]
    cases hl : AddRecord.loop table.Columns record <;> simp
  · rw [AddRecord_present db name table Record.empty h, loop_empty]

/-- Witness of C1 on the store of `main`: its first record is accepted, and so
is the empty record. -/
theorem AddRecord_succeeds_iff_witness :
    mainDb.Tables "table1" = some { Name := "table1", Columns := mainColumns, Records := [] } ∧
    (AddRecord mainDb "table1" mainRecord1).err = none ∧
    (AddRecord mainDb "table1" Record.empty).err = none :=
  ⟨rfl, rfl,
    (AddRecord_succeeds_iff mainDb "table1"
      { Name := "table1", Columns := mainColumns, Records := [] } mainRecord1 rfl).2⟩

/-- C2: a call of `AddRecord` that returns an error leaves the store as it was
and prints nothing; `PrintRecords` on the table gives the same result after the
failed call as before it. -/
theorem AddRecord_rejected_unchanged (db : Database) (name : String) (record : Record)
    (e : String) (h : (AddRecord db name record).err = some e) :
    (AddRecord db name record).db = db ∧
    (AddRecord db name record).out = [] ∧
    PrintRecords (AddRecord db name record).db name = PrintRecords db name := by
  have hdb : (AddRecord db name record).db = db := by
    unfold AddRecord at h ⊢
    cases ht : db.Tables name with
    | none => rfl
    | some table =>
      simp only [ht] at h ⊢
      cases hl : AddRecord.loop table.Columns record with
      | none => simp [hl] at h
      | some e1 => rfl
  refine ⟨hdb, ?_, by rw [hdb]⟩
  unfold AddRecord
  split
  · rfl
  · split <;> rfl

/-- Witness of C2: the record `{id: 21}` is rejected by `table1` of `main`, and
the store is unchanged. -/
theorem AddRecord_rejected_unchanged_witness :
    (AddRecord mainDb "table1" (Record.ofList [("id", Value.int 21)])).err
      = some "column id is below the minimum value of 20" ∧
    (AddRecord mainDb "table1" (Record.ofList [("id", Value.int 21)])).db = mainDb ∧
    (AddRecord mainDb "table1" (Record.ofList [("id", Value.int 21)])).out = [] ∧
    PrintRecords (AddRecord mainDb "table1" (Record.ofList [("id", Value.int 21)])).db "table1"
      = PrintRecords mainDb "table1" :=
  ⟨rfl, AddRecord_rejected_unchanged mainDb "table1" (Record.ofList [("id", Value.int 21)])
    "column id is below the minimum value of 20" rfl⟩

/-- C3: an accepted `AddRecord` on a present table appends the record, as given,
at the end of the table's records, keeps the table's name and column list, and
leaves every other table of the store as it was. -/
theorem AddRecord_appends (db : Database) (name : String) (table : Table) (record : Record)
    (h : db.Tables name = some table) (hok : (AddRecord db name record).err = none) :
    (AddRecord db name record).db.Tables name =
      some { Name := table.Name, Columns := table.Columns, Records := table.Records ++ [record] } ∧
    ∀ other, other ≠ name → (AddRecord db name record).db.Tables other = db.Tables other := by
  rw [AddRecord_present db name table record h] at hok ⊢
  cases hl : AddRecord.loop table.Columns record with
  | some e => simp [hl] at hok
  | none =>
    refine ⟨by simp [mapSet], ?_⟩
    intro other hne
    simp [mapSet, hne]

/-- Witness of C3: the first insertion of `main`. -/
theorem AddRecord_appends_witness :
    (AddRecord mainDb "table1" mainRecord1).err = none ∧
    (AddRecord mainDb "table1" mainRecord1).db.Tables "table1" =
      some { Name := "table1", Columns := mainColumns, Records := [] ++ [mainRecord1] } ∧
    ∀ other, other ≠ "table1" →
      (AddRecord mainDb "table1" mainRecord1).db.Tables other = mainDb.Tables other :=
  ⟨rfl, AddRecord_appends mainDb "table1"
    { Name := "table1", Columns := mainColumns, Records := [] } mainRecord1 rfl rfl⟩

theorem addRecords_valid (cols : List Column) (name : String) (records : List Record)
    (hvalid : ∀ r ∈ records, ValidRecord cols r) :
    ∀ (db : Database) (table : Table), db.Tables name = some table → table.Columns = cols →
      (addRecords db name records).2 = List.replicate records.length none ∧
      (addRecords db name records).1.Tables name =
        some { Name := table.Name, Columns := cols, Records := table.Records ++ records } := by
  induction records with
  | nil =>
    intro db table h hc
    subst hc
    simp [addRecords, h]
  | cons r rest ih =>
    intro db table h hc
    subst hc
    have hr : AddRecord.loop table.Columns r = none :=
      (loop_eq_none_iff _ _).mpr (hvalid r (List.mem_cons_self _ _))
    have hstep : AddRecord db name r =
        { db := { Tables := mapSet db.Tables name { table with Records := table.Records ++ [r] } },
          out := [], err := none } := by
      rw [AddRecord_present db name table r h, hr]
    have hnext := ih (fun x hx => hvalid x (List.mem_cons_of_mem _ hx))
      { Tables := mapSet db.Tables name { table with Records := table.Records ++ [r] } }
      { table with Records := table.Records ++ [r] } (by simp [mapSet]) rfl
    simp only [addRecords, hstep, List.length_cons, List.replicate_succ]
    refine ⟨by rw [hnext.1], ?_⟩
    rw [hnext.2]
    simp

/-- C4: after creating table `name` in a store that lacks it, inserting records
that are all valid against the column list, in order, makes every `AddRecord`
call succeed, and `PrintRecords` then succeeds and yields exactly those records
in that order (duplicates included). -/
theorem addRecords_order_preserved (db : Database) (name : String) (cols : List Column)
    (records : List Record) (habs : db.Tables name = none)
    (hvalid : ∀ r ∈ records, ValidRecord cols r) :
    (CreateTable db name cols).err = none ∧
    (addRecords (CreateTable db name cols).db name records).2
      = List.replicate records.length none ∧
    (PrintRecords (addRecords (CreateTable db name cols).db name records).1 name).out = records ∧
    (PrintRecords (addRecords (CreateTable db name cols).db name records).1 name).err = none := by
  have hc : CreateTable db name cols =
      { db := { Tables := mapSet db.Tables name { Name := name, Columns := cols, Records := [] } },
        out := [], err := none } := by
    simp [CreateTable, habs]
  have h := addRecords_valid cols name records hvalid (CreateTable db name cols).db
    { Name := name, Columns := cols, Records := [] } (by simp [hc, mapSet]) rfl
  refine ⟨by rw [hc], h.1, ?_, ?_⟩
  · simp [PrintRecords, h.2]
  · simp [PrintRecords, h.2]

/-- Witness of C4: the two records of `main`, the first one inserted twice. -/
theorem addRecords_order_preserved_witness :
    (addRecords (CreateTable Database.empty "table1" mainColumns).db "table1"
        [mainRecord1, mainRecord2, mainRecord1]).2 = [none, none, none] ∧
    (PrintRecords (addRecords (CreateTable Database.empty "table1" mainColumns).db "table1"
        [mainRecord1, mainRecord2, mainRecord1]).1 "table1").out
      = [mainRecord1, mainRecord2, mainRecord1] := by
  have h := addRecords_order_preserved Database.empty "table1" mainColumns
    [mainRecord1, mainRecord2, mainRecord1] rfl
    (by
      intro r hr
      simp only [List.mem_cons, List.mem_singleton, List.not_mem_nil, or_false] at hr
      rcases hr with rfl | rfl | rfl <;> exact (loop_eq_none_iff _ _).mp rfl)
  exact ⟨h.2.1, h.2.2.1⟩

/-! ## FilterRecord -/

theorem FilterRecord_present (db : Database) (tableName columnName : String) (value : Value)
    (table : Table) (h : db.Tables tableName = some table) :
    FilterRecord db tableName columnName value =
      { db := db, out := (FilterRecord.loop columnName value table.Records).1,
        err := none, panicked := (FilterRecord.loop columnName value table.Records).2 } := by
  simp [FilterRecord, h]

theorem index_eq_iff (record : Record) (columnName : String) (value : Value)
    (hv : value ≠ Value.nil) :
    record.index columnName = value ↔ record columnName = some value := by
  unfold Record.index
  cases h : record columnName with
  | none => simp [Ne.symm hv]
  | some v => simp

theorem index_eq_nil_iff (record : Record) (columnName : String) :
    record.index columnName = Value.nil ↔
      (record columnName = none ∨ record columnName = some Value.nil) := by
  unfold Record.index
  cases h : record columnName with
  | none => simp
  | some v => simp

theorem Float64_eq_of_ne_nan (a b : Float64) (hb : b ≠ Float64.nan) :
    Float64.eq a b = decide (a = b) := by
  cases a <;> cases b <;> simp [Float64.eq] at hb ⊢

theorem goEq_of_plain (value : Value) (hc : value.comparable = true)
    (hnan : value ≠ Value.float Float64.nan) (w : Value) :
    Value.goEq w value = some (decide (w = value)) := by
  cases value with
  | uncomparable t i => simp [Value.comparable] at hc
  | float f =>
    have hf : f ≠ Float64.nan := fun hx => hnan (by rw [hx])
    cases w <;> simp [Value.goEq, Float64_eq_of_ne_nan _ f hf]
  | nil => cases w <;> simp [Value.goEq]
  | str s => cases w <;> simp [Value.goEq]
  | int i => cases w <;> simp [Value.goEq]
  | bool b => cases w <;> simp [Value.goEq]

theorem goEq_nan (w : Value) : Value.goEq w (Value.float Float64.nan) = some false := by
  cases w with
  | float f => cases f <;> simp [Value.goEq, Float64.eq]
  | nil => rfl
  | str s => rfl
  | int i => rfl
  | bool b => rfl
  | uncomparable t i => rfl

theorem goEq_nil_left (value : Value) (h : Value.goEq Value.nil value = some true) :
    value = Value.nil := by
  cases value <;> simp [Value.goEq] at h ⊢

theorem goEq_uncomparable (t : String) (i : Nat) (w : Value) :
    (Value.goEq w (Value.uncomparable t i) = none ↔ ∃ j, w = Value.uncomparable t j) ∧
    ((∀ j, w ≠ Value.uncomparable t j) → Value.goEq w (Value.uncomparable t i) = some false) := by
  cases w with
  | uncomparable u j =>
    by_cases hu : u = t
    · subst hu
      simp [Value.goEq]
    · simp [Value.goEq, hu]
  | nil => simp [Value.goEq]
  | str s => simp [Value.goEq]
  | int k => simp [Value.goEq]
  | bool b => simp [Value.goEq]
  | float f => simp [Value.goEq]

theorem filterLoop_eq_filter (columnName : String) (value : Value) (records : List Record)
    (hgo : ∀ w, Value.goEq w value = some (decide (w = value))) :
    FilterRecord.loop columnName value records =
      (records.filter (fun record => decide (record.index columnName = value)), false) := by
  induction records with
  | nil => rfl
  | cons record rest ih =>
    simp only [FilterRecord.loop, hgo, ih, List.filter_cons]
    by_cases hr : record.index columnName = value <;> simp [hr]

theorem filterLoop_eq_nil (columnName : String) (value : Value) (records : List Record)
    (hgo : ∀ record ∈ records, Value.goEq (record.index columnName) value = some false) :
    FilterRecord.loop columnName value records = ([], false) := by
  induction records with
  | nil => rfl
  | cons record rest ih =>
    simp only [FilterRecord.loop, hgo record (List.mem_cons_self _ _)]
    exact ih (fun r hr => hgo r (List.mem_cons_of_mem _ hr))

theorem filterLoop_mem (columnName : String) (value : Value) (records : List Record)
    (record : Record) (hmem : record ∈ (FilterRecord.loop columnName value records).1) :
    Value.goEq (record.index columnName) value = some true := by
  induction records with
  | nil => simp [FilterRecord.loop] at hmem
  | cons r rest ih =>
    simp only [FilterRecord.loop] at hmem
    cases hg : Value.goEq (r.index columnName) value with
    | none => simp [hg] at hmem
    | some b =>
      cases b with
      | false =>
        simp only [hg] at hmem
        exact ih hmem
      | true =>
        simp only [hg, List.mem_cons] at hmem
        rcases hmem with rfl | hrest
        · exact hg
        · exact ih hrest

theorem filterLoop_panics (columnName : String) (value : Value) (records : List Record)
    (h : ∃ record ∈ records, Value.goEq (record.index columnName) value = none) :
    (FilterRecord.loop columnName value records).2 = true := by
  induction records with
  | nil =>
    obtain ⟨record, hmem, _⟩ := h
    simp at hmem
  | cons r rest ih =>
    cases hg : Value.goEq (r.index columnName) value with
    | none => simp [FilterRecord.loop, hg]
    | some b =>
      have hrest : ∃ record ∈ rest, Value.goEq (record.index columnName) value = none := by
        obtain ⟨record, hmem, hnone⟩ := h
        rcases List.mem_cons.mp hmem with rfl | hin
        · rw [hg] at hnone
          exact Option.noConfusion hnone
        · exact ⟨record, hin, hnone⟩
      cases b <;> simp [FilterRecord.loop, hg, ih hrest]

/-- C5, as amended. On a present table:
for a value of a comparable dynamic type other than the nil interface and other
than a NaN, `FilterRecord` returns without error, leaves the store alone and
yields exactly the records of the table, in storage order, that have an entry
for `columnName` equal to the value in type and value, so nothing when no record
has such an entry;
for the nil interface it returns without error and yields exactly the records
that have no entry for `columnName` or hold the nil interface there;
for a NaN it returns without error and yields nothing;
for a value of an uncomparable dynamic type it panics when a record holds a
value of that same dynamic type at `columnName`, and otherwise returns without
error and yields nothing. -/
theorem FilterRecord_exact (db : Database) (tableName columnName : String) (value : Value)
    (table : Table) (h : db.Tables tableName = some table) :
    (value.comparable = true → value ≠ Value.nil → value ≠ Value.float Float64.nan →
      FilterRecord db tableName columnName value =
        { db := db,
          out := table.Records.filter (fun record => decide (record columnName = some value)),
          err := none, panicked := false } ∧
      ((∀ record ∈ table.Records, record columnName ≠ some value) →
        (FilterRecord db tableName columnName value).out = [])) ∧
    (value = Value.nil →
      FilterRecord db tableName columnName value =
        { db := db,
          out := table.Records.filter (fun record =>
            decide (record columnName = none ∨ record columnName = some Value.nil)),
          err := none, panicked := false }) ∧
    (value = Value.float Float64.nan →
      FilterRecord db tableName columnName value =
        { db := db, out := [], err := none, panicked := false }) ∧
    (∀ t i, value = Value.uncomparable t i →
      ((∃ record ∈ table.Records, ∃ j, record columnName = some (Value.uncomparable t j)) →
        (FilterRecord db tableName columnName value).panicked = true ∧
        (FilterRecord db tableName columnName value).db = db) ∧
      ((∀ record ∈ table.Records, ∀ j, record columnName ≠ some (Value.uncomparable t j)) →
        FilterRecord db tableName columnName value =
          { db := db, out := [], err := none, panicked := false })) := by
  rw [FilterRecord_present db tableName columnName value table h]
  refine ⟨?_, ?_, ?_, ?_⟩
  · intro hc hv hnan
    have hf : table.Records.filter (fun record => decide (record.index columnName = value)) =
        table.Records.filter (fun record => decide (record columnName = some value)) := by
      apply List.filter_congr
      intro record _
      by_cases hr : record columnName = some value
      · simp [hr, (index_eq_iff record columnName value hv).mpr hr]
      · have : record.index columnName ≠ value := fun hx =>
          hr ((index_eq_iff record columnName value hv).mp hx)
        simp [hr, this]
    rw [filterLoop_eq_filter columnName value table.Records (goEq_of_plain value hc hnan), hf]
    refine ⟨rfl, ?_⟩
    intro hno
    show table.Records.filter (fun record => decide (record columnName = some value)) = []
    rw [List.filter_eq_nil_iff]
    intro record hmem
    simpa using hno record hmem
  · intro hv
    subst hv
    have hf : table.Records.filter (fun record => decide (record.index columnName = Value.nil)) =
        table.Records.filter (fun record =>
          decide (record columnName = none ∨ record columnName = some Value.nil)) := by
      apply List.filter_congr
      intro record _
      by_cases hr : record.index columnName = Value.nil
      · rw [decide_eq_true hr, decide_eq_true ((index_eq_nil_iff record columnName).mp hr)]
      · have hn : ¬ (record columnName = none ∨ record columnName = some Value.nil) :=
          fun hx => hr ((index_eq_nil_iff record columnName).mpr hx)
        rw [decide_eq_false hr, decide_eq_false hn]
    rw [filterLoop_eq_filter columnName Value.nil table.Records
      (goEq_of_plain Value.nil rfl (fun hx => Value.noConfusion hx)), hf]
  · intro hv
    subst hv
    rw [filterLoop_eq_nil columnName _ table.Records (fun record _ => goEq_nan _)]
  · intro t i hv
    subst hv
    constructor
    · rintro ⟨record, hmem, j, hj⟩
      refine ⟨?_, rfl⟩
      apply filterLoop_panics
      refine ⟨record, hmem, (goEq_uncomparable t i _).1.mpr ⟨j, ?_⟩⟩
      simp [Record.index, hj]
    · intro hno
      rw [filterLoop_eq_nil columnName _ table.Records]
      intro record hmem
      apply (goEq_uncomparable t i _).2
      intro j hj
      cases hr : record columnName with
      | none => simp [Record.index, hr] at hj
      | some w =>
        simp only [Record.index, hr] at hj
        exact hno record hmem j (by rw [hr, hj])

/-- Witness of C5 on the example table: filtering `id = 1` yields the first and
the third record in that order, filtering `id = 3` yields nothing, and the
string `"1"` matches no record whose `id` is the integer 1; on the table holding
only `{value: "a"}`, filtering `id` by the nil interface yields that record; on
the table holding a record with a slice under `tags`, filtering `tags` by
another slice of the same type panics. -/
theorem FilterRecord_exact_witness :
    filterDb.Tables "T" = some filterTable ∧
    (FilterRecord filterDb "T" "id" (Value.int 1)).out = [filterRecordA, filterRecordC] ∧
    (FilterRecord filterDb "T" "id" (Value.int 1)).err = none ∧
    (FilterRecord filterDb "T" "id" (Value.int 1)).panicked = false ∧
    (FilterRecord filterDb "T" "id" (Value.int 3)).out = [] ∧
    (FilterRecord filterDb "T" "id" (Value.str "1")).out = [] ∧
    (FilterRecord valueOnlyDb "T" "id" Value.nil).out = [valueOnlyRecord] ∧
    (FilterRecord sliceDb "T" "tags" (Value.uncomparable "[]string" 1)).panicked = true :=
  ⟨rfl,
   congrArg Result.out ((FilterRecord_exact filterDb "T" "id" (Value.int 1) filterTable rfl).1
      rfl (by decide) (by decide)).1,
   congrArg Result.err ((FilterRecord_exact filterDb "T" "id" (Value.int 1) filterTable rfl).1
      rfl (by decide) (by decide)).1,
   congrArg Result.panicked ((FilterRecord_exact filterDb "T" "id" (Value.int 1) filterTable
      rfl).1 rfl (by decide) (by decide)).1,
   congrArg Result.out ((FilterRecord_exact filterDb "T" "id" (Value.int 3) filterTable rfl).1
      rfl (by decide) (by decide)).1,
   congrArg Result.out ((FilterRecord_exact filterDb "T" "id" (Value.str "1") filterTable rfl).1
      rfl (by decide) (by decide)).1,
   congrArg Result.out ((FilterRecord_exact valueOnlyDb "T" "id" Value.nil
      { Name := "T", Columns := filterColumns, Records := [valueOnlyRecord] } rfl).2.1 rfl),
   (((FilterRecord_exact sliceDb "T" "tags" (Value.uncomparable "[]string" 1)
      { Name := "T", Columns := filterColumns, Records := [sliceRecord] } rfl).2.2.2
      "[]string" 1 rfl).1 ⟨sliceRecord, List.mem_cons_self _ _, 0, rfl⟩).1⟩

/-- Counterexample to C5 as stated: it is not true for every value that
`FilterRecord` yields exactly the records whose entry at the column equals the
value. Table `T` holds the record `{value: "a"}`, which has no entry for `id`;
filtering `id` by the nil interface yields that record. -/
theorem FilterRecord_exact_counterexample :
    ¬ (∀ (db : Database) (tableName columnName : String) (value : Value) (table : Table),
        db.Tables tableName = some table →
        (FilterRecord db tableName columnName value).out =
          table.Records.filter (fun record => decide (record columnName = some value))) := by
  intro hall
  have h := hall valueOnlyDb "T" "id" Value.nil
    { Name := "T", Columns := filterColumns, Records := [valueOnlyRecord] } rfl
  have hout : (FilterRecord valueOnlyDb "T" "id" Value.nil).out = [valueOnlyRecord] := rfl
  have hnone : [valueOnlyRecord].filter (fun record => decide (record "id" = some Value.nil))
      = [] := rfl
  rw [hout, hnone] at h
  exact List.cons_ne_nil _ _ h

/-- C6, as amended: for a value other than the nil interface, a record that has
no entry for `columnName` is never in the output of `FilterRecord` on a present
table. -/
theorem FilterRecord_missing_never_matches (db : Database) (tableName columnName : String)
    (value : Value) (table : Table) (record : Record)
    (h : db.Tables tableName = some table) (hv : value ≠ Value.nil)
    (hmiss : record columnName = none) :
    record ∉ (FilterRecord db tableName columnName value).out := by
  rw [FilterRecord_present db tableName columnName value table h]
  intro hmem
  have hgo := filterLoop_mem columnName value table.Records record hmem
  have hidx : record.index columnName = Value.nil := by
    simp [Record.index, hmiss]
  rw [hidx] at hgo
  exact hv (goEq_nil_left value hgo)

/-- Witness of C6: the record `{value: "a"}` of table `T` has no entry for `id`
and is not in the output of filtering `id = 1`. -/
theorem FilterRecord_missing_never_matches_witness :
    valueOnlyDb.Tables "T" = some { Name := "T", Columns := filterColumns,
                                    Records := [valueOnlyRecord] } ∧
    valueOnlyRecord "id" = none ∧
    valueOnlyRecord ∉ (FilterRecord valueOnlyDb "T" "id" (Value.int 1)).out :=
  ⟨rfl, rfl,
   FilterRecord_missing_never_matches valueOnlyDb "T" "id" (Value.int 1)
     { Name := "T", Columns := filterColumns, Records := [valueOnlyRecord] } valueOnlyRecord
     rfl (by decide) rfl⟩

/-- Counterexample to C6 as stated: on the store of `main` after its two
insertions the first record has no entry for `email`, yet `FilterRecord` with
column `email` and the nil interface as value yields it. -/
theorem FilterRecord_missing_counterexample :
    ¬ (∀ (db : Database) (tableName columnName : String) (value : Value) (table : Table)
        (record : Record), db.Tables tableName = some table → record ∈ table.Records →
        record columnName = none →
        record ∉ (FilterRecord db tableName columnName value).out) := by
  intro hall
  have h := hall mainDb2 "table1" "email" Value.nil
    { Name := "table1", Columns := mainColumns, Records := [mainRecord1, mainRecord2] }
    mainRecord1 rfl (List.mem_cons_self _ _) rfl
  have hout : (FilterRecord mainDb2 "table1" "email" Value.nil).out
      = [mainRecord1, mainRecord2] := rfl
  rw [hout] at h
  exact h (List.mem_cons_self _ _)

/-! ## Absent tables -/

/-- C7: on a table name absent from the store, `DeleteTable`, `PrintRecords`,
`FilterRecord` and `UpdateTable` each return their table-not-found error
(`table not exists` for the first two, `table does not exist` for the last
two), print no record and leave the store as it was; `UpdateTable` does not
create the table. -/
theorem absent_table_operations_fail (db : Database) (name columnName : String) (value : Value)
    (columns : List Column) (h : db.Tables name = none) :
    DeleteTable db name = { db := db, out := [], err := some "table not exists" } ∧
    PrintRecords db name = { db := db, out := [], err := some "table not exists" } ∧
    FilterRecord db name columnName value =
      { db := db, out := [], err := some "table does not exist" } ∧
    UpdateTable db name columns = { db := db, out := [], err := some "table does not exist" } ∧
    (UpdateTable db name columns).db.Tables name = none := by
  refine ⟨?_, ?_, ?_, ?_, ?_⟩ <;> simp [DeleteTable, PrintRecords, FilterRecord, UpdateTable, h]

/-- Witness of C7: the table `users`, which `main` never creates, on the store
of `main` after its insertions (main.go line 172 calls `UpdateTable` on it). -/
theorem absent_table_operations_fail_witness :
    mainDb2.Tables "users" = none ∧
    DeleteTable mainDb2 "users" = { db := mainDb2, out := [], err := some "table not exists" } ∧
    PrintRecords mainDb2 "users" = { db := mainDb2, out := [], err := some "table not exists" } ∧
    FilterRecord mainDb2 "users" "id" (Value.int 1) =
      { db := mainDb2, out := [], err := some "table does not exist" } ∧
    UpdateTable mainDb2 "users" mainNewColumns =
      { db := mainDb2, out := [], err := some "table does not exist" } ∧
    (UpdateTable mainDb2 "users" mainNewColumns).db.Tables "users" = none :=
  ⟨rfl, absent_table_operations_fail mainDb2 "users" "id" (Value.int 1) mainNewColumns rfl⟩

/-- C8, the code at the failing input: `AddRecord` on the absent table `users`
returns the error text `table already exists`, the very error `CreateTable`
returns for a duplicate name, and not the error any of the four other
operations returns for the same absent table; the store is unchanged. -/
theorem AddRecord_absent_reports_already_exists :
    mainDb2.Tables "users" = none ∧
    (AddRecord mainDb2 "users" mainRecord1).err = some "table already exists" ∧
    (AddRecord mainDb2 "users" mainRecord1).err = (CreateTable mainDb2 "table1" mainColumns).err ∧
    (AddRecord mainDb2 "users" mainRecord1).err ≠ (DeleteTable mainDb2 "users").err ∧
    (AddRecord mainDb2 "users" mainRecord1).err ≠ (PrintRecords mainDb2 "users").err ∧
    (AddRecord mainDb2 "users" mainRecord1).err ≠
      (FilterRecord mainDb2 "users" "id" (Value.int 1)).err ∧
    (AddRecord mainDb2 "users" mainRecord1).err ≠ (UpdateTable mainDb2 "users" mainNewColumns).err ∧
    (AddRecord mainDb2 "users" mainRecord1).db = mainDb2 :=
  ⟨rfl, rfl, rfl, by decide, by decide, by decide, by decide, rfl⟩

/-! ## CreateTable -/

/-- C9: when `CreateTable name cols1` has succeeded, an immediately following
`CreateTable name cols2` fails with `table already exists` and changes nothing:
the store still maps `name` to the table with column list `cols1` and no
record. More generally `CreateTable` fails with that error and leaves the store
as it was whenever the name is present. -/
theorem CreateTable_duplicate_rejected (db : Database) (name : String)
    (cols1 cols2 : List Column) :
    ((CreateTable db name cols1).err = none →
      CreateTable (CreateTable db name cols1).db name cols2 =
        { db := (CreateTable db name cols1).db, out := [], err := some "table already exists" } ∧
      (CreateTable (CreateTable db name cols1).db name cols2).db.Tables name =
        some { Name := name, Columns := cols1, Records := [] }) ∧
    (∀ table, db.Tables name = some table →
      CreateTable db name cols2 = { db := db, out := [], err := some "table already exists" }) := by
  constructor
  · intro hok
    cases ht : db.Tables name with
    | some table => simp [CreateTable, ht] at hok
    | none => simp [CreateTable, ht, mapSet]
  · intro table ht
    simp [CreateTable, ht]

/-- Witness of C9: creating `table1` twice from the empty store, and creating
`table1` again on the store of `main` after its insertions. -/
theorem CreateTable_duplicate_rejected_witness :
    (CreateTable Database.empty "table1" mainColumns).err = none ∧
    (CreateTable (CreateTable Database.empty "table1" mainColumns).db "table1" mainNewColumns
      = { db := (CreateTable Database.empty "table1" mainColumns).db, out := [],
          err := some "table already exists" } ∧
     (CreateTable (CreateTable Database.empty "table1" mainColumns).db "table1"
        mainNewColumns).db.Tables "table1"
      = some { Name := "table1", Columns := mainColumns, Records := [] }) ∧
    mainDb2.Tables "table1"
      = some { Name := "table1", Columns := mainColumns, Records := [mainRecord1, mainRecord2] } ∧
    CreateTable mainDb2 "table1" mainNewColumns
      = { db := mainDb2, out := [], err := some "table already exists" } :=
  ⟨rfl,
   (CreateTable_duplicate_rejected Database.empty "table1" mainColumns mainNewColumns).1 rfl,
   rfl,
   (CreateTable_duplicate_rejected mainDb2 "table1" mainColumns mainNewColumns).2
     { Name := "table1", Columns := mainColumns, Records := [mainRecord1, mainRecord2] } rfl⟩

/-- C10: on a name absent from the store `CreateTable` succeeds for every column
list, without looking at it; the new store maps the name to a table with that
name, exactly that column list and no record, and maps every other name to what
it mapped to before. -/
theorem CreateTable_creates (db : Database) (name : String) (columns : List Column)
    (h : db.Tables name = none) :
    (CreateTable db name columns).err = none ∧
    (CreateTable db name columns).out = [] ∧
    (CreateTable db name columns).db.Tables name =
      some { Name := name, Columns := columns, Records := [] } ∧
    ∀ other, other ≠ name → (CreateTable db name columns).db.Tables other = db.Tables other := by
  refine ⟨?_, ?_, ?_, ?_⟩
  · simp [CreateTable, h]
  · simp [CreateTable, h]
  · simp [CreateTable, h, mapSet]
  · intro other hne
    simp [CreateTable, h, mapSet, hne]

/-- Witness of C10: creating `users` on the store of `main` with a column list
that repeats a name and has negative limits. -/
theorem CreateTable_creates_witness :
    mainDb2.Tables "users" = none ∧
    (CreateTable mainDb2 "users" oddColumns).err = none ∧
    (CreateTable mainDb2 "users" oddColumns).out = [] ∧
    (CreateTable mainDb2 "users" oddColumns).db.Tables "users" =
      some { Name := "users", Columns := oddColumns, Records := [] } ∧
    ∀ other, other ≠ "users" →
      (CreateTable mainDb2 "users" oddColumns).db.Tables other = mainDb2.Tables other :=
  ⟨rfl, CreateTable_creates mainDb2 "users" oddColumns rfl⟩

/-! ## UpdateTable and DeleteTable -/

/-- C11: on a present table `UpdateTable` succeeds and stores the table with the
new column list, the same name and the same records (no record is looked at),
leaves every other table as it was, and `PrintRecords` on the table gives the
same records after the update as before. -/
theorem UpdateTable_replaces_columns (db : Database) (name : String) (table : Table)
    (newCols : List Column) (h : db.Tables name = some table) :
    (UpdateTable db name newCols).err = none ∧
    (UpdateTable db name newCols).out = [] ∧
    (UpdateTable db name newCols).db.Tables name =
      some { Name := table.Name, Columns := newCols, Records := table.Records } ∧
    (∀ other, other ≠ name → (UpdateTable db name newCols).db.Tables other = db.Tables other) ∧
    (PrintRecords (UpdateTable db name newCols).db name).out = (PrintRecords db name).out ∧
    (PrintRecords (UpdateTable db name newCols).db name).err = (PrintRecords db name).err := by
  refine ⟨?_, ?_, ?_, ?_, ?_, ?_⟩
  · simp [UpdateTable, h]
  · simp [UpdateTable, h]
  · simp [UpdateTable, h, mapSet]
  · intro other hne
    simp [UpdateTable, h, mapSet, hne]
  · simp [UpdateTable, PrintRecords, h, mapSet]
  · simp [UpdateTable, PrintRecords, h, mapSet]

/-- Witness of C11: on the store of `main` after its insertions, `table1` gets a
column list under which `id` is a one-byte String column; both stored records,
whose `id` is an integer, stay. -/
theorem UpdateTable_replaces_columns_witness :
    (AddRecord (UpdateTable mainDb2 "table1" stringIdColumns).db "table1" mainRecord1).err
      = some "column id expects a string value" ∧
    (UpdateTable mainDb2 "table1" stringIdColumns).err = none ∧
    (UpdateTable mainDb2 "table1" stringIdColumns).db.Tables "table1" =
      some { Name := "table1", Columns := stringIdColumns, Records := [mainRecord1, mainRecord2] } ∧
    (PrintRecords (UpdateTable mainDb2 "table1" stringIdColumns).db "table1").out
      = (PrintRecords mainDb2 "table1").out := by
  have h := UpdateTable_replaces_columns mainDb2 "table1"
    { Name := "table1", Columns := mainColumns, Records := [mainRecord1, mainRecord2] }
    stringIdColumns rfl
  exact ⟨rfl, h.1, h.2.2.1, h.2.2.2.2.1⟩

/-- C12: on a present table `DeleteTable` succeeds and removes the entry: the
new store has no table under the name, so `PrintRecords`, `AddRecord`,
`FilterRecord`, `UpdateTable` and `DeleteTable` on it fail as they do for an
absent table and leave the store alone, `CreateTable` on it succeeds with no
record, and every other name maps to the same table as before. -/
theorem DeleteTable_removes (db : Database) (name columnName : String) (table : Table)
    (record : Record) (value : Value) (columns : List Column)
    (h : db.Tables name = some table) :
    (DeleteTable db name).err = none ∧
    (DeleteTable db name).db.Tables name = none ∧
    PrintRecords (DeleteTable db name).db name =
      { db := (DeleteTable db name).db, out := [], err := some "table not exists" } ∧
    AddRecord (DeleteTable db name).db name record =
      { db := (DeleteTable db name).db, out := [], err := some "table already exists" } ∧
    FilterRecord (DeleteTable db name).db name columnName value =
      { db := (DeleteTable db name).db, out := [], err := some "table does not exist" } ∧
    UpdateTable (DeleteTable db name).db name columns =
      { db := (DeleteTable db name).db, out := [], err := some "table does not exist" } ∧
    DeleteTable (DeleteTable db name).db name =
      { db := (DeleteTable db name).db, out := [], err := some "table not exists" } ∧
    (CreateTable (DeleteTable db name).db name columns).err = none ∧
    (CreateTable (DeleteTable db name).db name columns).db.Tables name =
      some { Name := name, Columns := columns, Records := [] } ∧
    ∀ other, other ≠ name → (DeleteTable db name).db.Tables other = db.Tables other := by
  have hd : DeleteTable db name =
      { db := { Tables := mapDelete db.Tables name }, out := [], err := none } := by
    simp [DeleteTable, h]
  have habs : (DeleteTable db name).db.Tables name = none := by
    simp [hd, mapDelete]
  refine ⟨by rw [hd], habs, ?_, ?_, ?_, ?_, ?_, ?_, ?_, ?_⟩
  · simp [PrintRecords, habs]
  · simp [AddRecord, habs]
  · simp [FilterRecord, habs]
  · simp [UpdateTable, habs]
  · generalize DeleteTable db name = r at habs
    simp [DeleteTable, habs]
  · simp [CreateTable, habs]
  · simp [CreateTable, habs, mapSet]
  · intro other hne
    simp [hd, mapDelete, hne]

/-- Witness of C12: deleting `table1` from the store of `main` after its
insertions. -/
theorem DeleteTable_removes_witness :
    (DeleteTable mainDb2 "table1").err = none ∧
    (DeleteTable mainDb2 "table1").db.Tables "table1" = none ∧
    (PrintRecords (DeleteTable mainDb2 "table1").db "table1").err = some "table not exists" ∧
    (CreateTable (DeleteTable mainDb2 "table1").db "table1" mainNewColumns).db.Tables "table1" =
      some { Name := "table1", Columns := mainNewColumns, Records := [] } := by
  have h := DeleteTable_removes mainDb2 "table1" "id"
    { Name := "table1", Columns := mainColumns, Records := [mainRecord1, mainRecord2] }
    mainRecord1 (Value.int 1) mainNewColumns rfl
  exact ⟨h.1, h.2.1, by rw [h.2.2.1], h.2.2.2.2.2.2.2.2.1⟩

/-! ## The column checks of AddRecord -/

theorem mainColumns_only_id (v : Value) :
    ∀ col ∈ mainColumns, col ≠ idColumn → Record.ofList [("id", v)] col.Name = none := by
  intro col hcol hne
  simp only [mainColumns, List.mem_cons, List.mem_singleton, List.not_mem_nil, or_false] at hcol
  rcases hcol with rfl | rfl
  · exact absurd rfl hne
  · rfl

theorem lengthColumn_only (v : Value) :
    ∀ col ∈ [lengthColumn], col ≠ lengthColumn → Record.ofList [("value", v)] col.Name = none := by
  intro col hcol hne
  exact absurd (List.mem_singleton.mp hcol) hne

/-- C13: for a table with an Int column `c` and a record whose only entry for a
declared column is the value `v` for `c`: an integer `v` at most `MaxIntValue`
(equal to it, or however negative) is accepted; an integer above it is rejected
with the value-exceeded error naming `c` and the limit; a value that is not an
integer is rejected with the type-mismatch error naming `c`. -/
theorem AddRecord_int_bound (db : Database) (name : String) (table : Table) (c : Column)
    (record : Record) (v : Value) (h : db.Tables name = some table) (hc : c ∈ table.Columns)
    (hint : c.DataType = ColumnType.Int) (hv : record c.Name = some v)
    (honly : ∀ col ∈ table.Columns, col ≠ c → record col.Name = none) :
    (∀ i, v = Value.int i → i ≤ c.MaxIntValue → (AddRecord db name record).err = none) ∧
    (∀ i, v = Value.int i → i > c.MaxIntValue →
      (AddRecord db name record).err =
        some ("column " ++ c.Name ++ " is below the minimum value of " ++ toString c.MaxIntValue)) ∧
    ((∀ i, v ≠ Value.int i) →
      (AddRecord db name record).err = some ("column " ++ c.Name ++ " expects an int value")) := by
  rw [AddRecord_err_present db name table record h, loop_only_entry table.Columns c record hc honly]
  unfold AddRecord.checkColumn
  simp only [hv, hint, columnType_String_ne_Int.symm, if_false, if_true]
  refine ⟨?_, ?_, ?_⟩
  · intro i hi hle
    subst hi
    simp [not_lt.mpr hle]
  · intro i hi hgt
    subst hi
    simp [hgt]
  · intro hno
    cases v with
    | int i => exact absurd rfl (hno i)
    | nil => rfl
    | str s => rfl
    | bool b => rfl
    | float f => rfl
    | uncomparable t j => rfl

/-- Witness of C13 on `table1` of `main`, whose column `id` has `MaxIntValue`
20: 21 is rejected as exceeding 20, 20 is accepted, the string `x` is rejected as
a type mismatch. -/
theorem AddRecord_int_bound_witness :
    (AddRecord mainDb "table1" (Record.ofList [("id", Value.int 21)])).err
      = some "column id is below the minimum value of 20" ∧
    (AddRecord mainDb "table1" (Record.ofList [("id", Value.int 20)])).err = none ∧
    (AddRecord mainDb "table1" (Record.ofList [("id", Value.int (-1000))])).err = none ∧
    (AddRecord mainDb "table1" (Record.ofList [("id", Value.str "x")])).err
      = some "column id expects an int value" :=
  ⟨(AddRecord_int_bound mainDb "table1" { Name := "table1", Columns := mainColumns, Records := [] }
      idColumn (Record.ofList [("id", Value.int 21)]) (Value.int 21) rfl (by decide) rfl rfl
      (mainColumns_only_id _)).2.1 21 rfl (by decide),
   (AddRecord_int_bound mainDb "table1" { Name := "table1", Columns := mainColumns, Records := [] }
      idColumn (Record.ofList [("id", Value.int 20)]) (Value.int 20) rfl (by decide) rfl rfl
      (mainColumns_only_id _)).1 20 rfl (by decide),
   (AddRecord_int_bound mainDb "table1" { Name := "table1", Columns := mainColumns, Records := [] }
      idColumn (Record.ofList [("id", Value.int (-1000))]) (Value.int (-1000)) rfl (by decide)
      rfl rfl (mainColumns_only_id _)).1 (-1000) rfl (by decide),
   (AddRecord_int_bound mainDb "table1" { Name := "table1", Columns := mainColumns, Records := [] }
      idColumn (Record.ofList [("id", Value.str "x")]) (Value.str "x") rfl (by decide) rfl rfl
      (mainColumns_only_id _)).2.2 (fun _ hx => Value.noConfusion hx)⟩

/-- C14: for a table with a String column `c` of limit `L = MaxStringLength` and
a record whose only entry for a declared column is the value `v` for `c`: a
value that is not a string is rejected with the type-mismatch error naming `c`;
a string is accepted whatever its length when `L` is 0; when `L > 0` a string
longer than `L` is rejected with the length-exceeded error naming `c` and `L`,
and a string of length at most `L` is accepted. -/
theorem AddRecord_string_limit (db : Database) (name : String) (table : Table) (c : Column)
    (record : Record) (v : Value) (h : db.Tables name = some table) (hc : c ∈ table.Columns)
    (hstr : c.DataType = ColumnType.String) (hv : record c.Name = some v)
    (honly : ∀ col ∈ table.Columns, col ≠ c → record col.Name = none) :
    ((∀ s, v ≠ Value.str s) →
      (AddRecord db name record).err = some ("column " ++ c.Name ++ " expects a string value")) ∧
    (∀ s, v = Value.str s → c.MaxStringLength = 0 → (AddRecord db name record).err = none) ∧
    (∀ s, v = Value.str s → c.MaxStringLength > 0 →
      (s.utf8ByteSize : Int) > c.MaxStringLength →
      (AddRecord db name record).err =
        some ("column " ++ c.Name ++ " exceeds maximum length of " ++
          toString c.MaxStringLength)) ∧
    (∀ s, v = Value.str s → c.MaxStringLength > 0 →
      (s.utf8ByteSize : Int) ≤ c.MaxStringLength → (AddRecord db name record).err = none) := by
  rw [AddRecord_err_present db name table record h, loop_only_entry table.Columns c record hc honly]
  unfold AddRecord.checkColumn
  simp only [hv, hstr, if_true]
  refine ⟨?_, ?_, ?_, ?_⟩
  · intro hno
    cases v with
    | str s => exact absurd rfl (hno s)
    | nil => rfl
    | int i => rfl
    | bool b => rfl
    | float f => rfl
    | uncomparable t j => rfl
  · intro s hs hzero
    subst hs
    simp [hzero]
  · intro s hs hpos hgt
    subst hs
    simp [hpos, hgt]
  · intro s hs _ hle
    subst hs
    simp [not_lt.mpr hle]

/-- Witness of C14 on a table whose column `value` has `MaxStringLength` 5:
`abcdef` is rejected as exceeding 5 and `abcde` is accepted. -/
theorem AddRecord_string_limit_witness :
    (AddRecord lengthDb "T" (Record.ofList [("value", Value.str "abcdef")])).err
      = some "column value exceeds maximum length of 5" ∧
    (AddRecord lengthDb "T" (Record.ofList [("value", Value.str "abcde")])).err = none ∧
    (AddRecord lengthDb "T" (Record.ofList [("value", Value.int 7)])).err
      = some "column value expects a string value" :=
  ⟨(AddRecord_string_limit lengthDb "T" { Name := "T", Columns := [lengthColumn], Records := [] }
      lengthColumn (Record.ofList [("value", Value.str "abcdef")]) (Value.str "abcdef") rfl
      (by decide) rfl rfl (lengthColumn_only _)).2.2.1 "abcdef" rfl (by decide) (by decide),
   (AddRecord_string_limit lengthDb "T" { Name := "T", Columns := [lengthColumn], Records := [] }
      lengthColumn (Record.ofList [("value", Value.str "abcde")]) (Value.str "abcde") rfl
      (by decide) rfl rfl (lengthColumn_only _)).2.2.2 "abcde" rfl (by decide) (by decide),
   (AddRecord_string_limit lengthDb "T" { Name := "T", Columns := [lengthColumn], Records := [] }
      lengthColumn (Record.ofList [("value", Value.int 7)]) (Value.int 7) rfl
      (by decide) rfl rfl (lengthColumn_only _)).1 (fun _ hx => Value.noConfusion hx)⟩

theorem FailsWith_not_passes (col : Column) (v : Value) (e : String) (h : FailsWith col v e) :
    ¬ PassesCheck col v := by
  intro hp
  have hnone := (checkColumn_eq_none_iff col (fun _ => some v)).mpr (fun w hw => by
    simp only [Option.some.injEq] at hw
    exact hw ▸ hp)
  have hsome := (checkColumn_eq_some_iff col (fun _ => some v) e).mpr ⟨v, rfl, h⟩
  rw [hnone] at hsome
  exact Option.noConfusion hsome

/-- C15: two records that agree on every key that names a declared column of a
present table are accepted or rejected alike by `AddRecord`, with the same error
when rejected; an accepted record is stored as it is, so the keys that no column
declares are stored with their values. -/
theorem AddRecord_ignores_undeclared (db : Database) (name : String) (table : Table)
    (r r1 : Record) (h : db.Tables name = some table)
    (hagree : ∀ col ∈ table.Columns, r col.Name = r1 col.Name) :
    (AddRecord db name r).err = (AddRecord db name r1).err ∧
    ((AddRecord db name r).err = none ↔ (AddRecord db name r1).err = none) ∧
    ((AddRecord db name r1).err = none →
      ∃ stored, (AddRecord db name r1).db.Tables name =
          some { Name := table.Name, Columns := table.Columns,
                 Records := table.Records ++ [stored] } ∧
        ∀ k, stored k = r1 k) := by
  have herr : (AddRecord db name r).err = (AddRecord db name r1).err := by
    rw [AddRecord_err_present db name table r h, AddRecord_err_present db name table r1 h,
      loop_congr table.Columns r r1 hagree]
  refine ⟨herr, by rw [herr], ?_⟩
  intro hok
  rw [AddRecord_err_present db name table r1 h] at hok
  refine ⟨r1, ?_, fun _ => rfl⟩
  rw [AddRecord_present db name table r1 h, hok]
  simp [mapSet]

/-- Witness of C15: the first record of `main` and the same record with the
undeclared keys `extra` and `note`; both are accepted by `table1`, and the
stored record has the two keys with their values. -/
theorem AddRecord_ignores_undeclared_witness :
    (AddRecord mainDb "table1" mainRecord1).err = (AddRecord mainDb "table1" extraRecord).err ∧
    (AddRecord mainDb "table1" extraRecord).err = none ∧
    ∃ stored, (AddRecord mainDb "table1" extraRecord).db.Tables "table1" =
        some { Name := "table1", Columns := mainColumns, Records := [] ++ [stored] } ∧
      stored "extra" = some (Value.bool true) ∧ stored "note" = some Value.nil := by
  have h := AddRecord_ignores_undeclared mainDb "table1"
    { Name := "table1", Columns := mainColumns, Records := [] } mainRecord1 extraRecord rfl
    (by
      intro col hcol
      simp only [mainColumns, List.mem_cons, List.mem_singleton, List.not_mem_nil,
        or_false] at hcol
      rcases hcol with rfl | rfl <;> rfl)
  obtain ⟨stored, hst, hk⟩ := h.2.2 rfl
  exact ⟨h.1, rfl, stored, hst, by rw [hk]; rfl, by rw [hk]; rfl⟩

/-- C16: when `AddRecord` rejects a record on a present table, the error is the
one of the first column, in column-list order, for which the record has an entry
that fails the column's check (type mismatch, length exceeded or value exceeded,
naming the column and its limit): every column before it passes, the columns
after it play no part, and any table with the same column list, in any store,
rejects the record with the same error. -/
theorem AddRecord_first_failing_column (db : Database) (name : String) (table : Table)
    (record : Record) (e : String) (h : db.Tables name = some table)
    (herr : (AddRecord db name record).err = some e) :
    (∃ pre col post v, table.Columns = pre ++ col :: post ∧
      (∀ c ∈ pre, ∀ w, record c.Name = some w → PassesCheck c w) ∧
      record col.Name = some v ∧ ¬ PassesCheck col v ∧ FailsWith col v e ∧
      ∀ post1, AddRecord.loop (pre ++ col :: post1) record = some e) ∧
    (∀ (db1 : Database) (name1 : String) (table1 : Table), db1.Tables name1 = some table1 →
      table1.Columns = table.Columns → (AddRecord db1 name1 record).err = some e) := by
  rw [AddRecord_err_present db name table record h] at herr
  constructor
  · obtain ⟨pre, col, post, hsplit, hpre, hfail⟩ := loop_eq_some_split table.Columns record e herr
    obtain ⟨v, hv, hf⟩ := (checkColumn_eq_some_iff col record e).mp hfail
    refine ⟨pre, col, post, v, hsplit, ?_, hv, FailsWith_not_passes col v e hf, hf, ?_⟩
    · intro c hc
      exact (checkColumn_eq_none_iff c record).mp (hpre c hc)
    · intro post1
      rw [loop_append_of_pass pre (col :: post1) record hpre]
      simp [AddRecord.loop, hfail]
  · intro db1 name1 table1 h1 hcols
    rw [AddRecord_err_present db1 name1 table1 record h1, hcols, herr]

/-- Witness of C16 on `table1` of `main`: in the record `{id: 21, value: 7}`
both entries fail, and the error is that of `id`, the first column. -/
theorem AddRecord_first_failing_column_witness :
    (AddRecord mainDb "table1"
        (Record.ofList [("value", Value.int 7), ("id", Value.int 21)])).err
      = some "column id is below the minimum value of 20" ∧
    ∃ pre col post v, mainColumns = pre ++ col :: post ∧
      (∀ c ∈ pre, ∀ w,
        Record.ofList [("value", Value.int 7), ("id", Value.int 21)] c.Name = some w →
          PassesCheck c w) ∧
      Record.ofList [("value", Value.int 7), ("id", Value.int 21)] col.Name = some v ∧
      ¬ PassesCheck col v ∧ FailsWith col v "column id is below the minimum value of 20" ∧
      ∀ post1, AddRecord.loop (pre ++ col :: post1)
        (Record.ofList [("value", Value.int 7), ("id", Value.int 21)])
          = some "column id is below the minimum value of 20" :=
  ⟨rfl, (AddRecord_first_failing_column mainDb "table1"
    { Name := "table1", Columns := mainColumns, Records := [] }
    (Record.ofList [("value", Value.int 7), ("id", Value.int 21)])
    "column id is below the minimum value of 20" rfl rfl).1⟩

/-! ## Reachable stores and inspection -/

theorem apply_preserves_names (db : Database) (op : Op)
    (hinv : ∀ n t, db.Tables n = some t → t.Name = n) :
    ∀ n t, (op.apply db).db.Tables n = some t → t.Name = n := by
  intro n t ht
  cases op with
  | createTable name columns =>
    simp only [Op.apply, CreateTable] at ht
    cases hn : db.Tables name with
    | some old =>
      simp only [hn] at ht
      exact hinv n t ht
    | none =>
      simp only [hn, mapSet] at ht
      by_cases hk : n = name
      · simp only [hk, if_true, Option.some.injEq] at ht
        rw [← ht, hk]
      · simp only [hk, if_false] at ht
        exact hinv n t ht
  | deleteTable name =>
    simp only [Op.apply, DeleteTable] at ht
    cases hn : db.Tables name with
    | none =>
      simp only [hn] at ht
      exact hinv n t ht
    | some old =>
      simp only [hn, mapDelete] at ht
      by_cases hk : n = name
      · simp [hk] at ht
      · simp only [hk, if_false] at ht
        exact hinv n t ht
  | addRecord name record =>
    simp only [Op.apply, AddRecord] at ht
    cases hn : db.Tables name with
    | none =>
      simp only [hn] at ht
      exact hinv n t ht
    | some old =>
      simp only [hn] at ht
      cases hl : AddRecord.loop old.Columns record with
      | some e =>
        simp only [hl] at ht
        exact hinv n t ht
      | none =>
        simp only [hl, mapSet] at ht
        by_cases hk : n = name
        · simp only [hk, if_true, Option.some.injEq] at ht
          rw [← ht, hk]
          exact hinv name old hn
        · simp only [hk, if_false] at ht
          exact hinv n t ht
  | updateTable name columns =>
    simp only [Op.apply, UpdateTable] at ht
    cases hn : db.Tables name with
    | none =>
      simp only [hn] at ht
      exact hinv n t ht
    | some old =>
      simp only [hn, mapSet] at ht
      by_cases hk : n = name
      · simp only [hk, if_true, Option.some.injEq] at ht
        rw [← ht, hk]
        exact hinv name old hn
      · simp only [hk, if_false] at ht
        exact hinv n t ht
  | printRecords name =>
    have hdb : (Op.apply db (Op.printRecords name)).db = db := by
      simp only [Op.apply, PrintRecords]
      split <;> rfl
    rw [hdb] at ht
    exact hinv n t ht
  | filterRecord tableName columnName value =>
    have hdb : (Op.apply db (Op.filterRecord tableName columnName value)).db = db := by
      simp only [Op.apply, FilterRecord]
      split <;> rfl
    rw [hdb] at ht
    exact hinv n t ht

theorem runOps_preserves_names (ops : List Op) :
    ∀ db : Database, (∀ n t, db.Tables n = some t → t.Name = n) →
      ∀ n t, (runOps db ops).Tables n = some t → t.Name = n := by
  induction ops with
  | nil => intro db hinv; exact hinv
  | cons op rest ih =>
    intro db hinv
    exact ih (op.apply db).db (apply_preserves_names db op hinv)

/-- C17: in the store reached from the empty store by any finite sequence of
calls of the six methods, failed calls included, every table stored under a key
has that key as its `Name`; hence tables stored under two different keys have
different names. -/
theorem reachable_name_eq_key (ops : List Op) :
    (∀ n t, (runOps Database.empty ops).Tables n = some t → t.Name = n) ∧
    (∀ n1 n2 t1 t2, (runOps Database.empty ops).Tables n1 = some t1 →
      (runOps Database.empty ops).Tables n2 = some t2 → n1 ≠ n2 → t1.Name ≠ t2.Name) := by
  have hinv := runOps_preserves_names ops Database.empty (by
    intro n t ht
    simp [Database.empty] at ht)
  refine ⟨hinv, ?_⟩
  intro n1 n2 t1 t2 h1 h2 hne
  rw [hinv n1 t1 h1, hinv n2 t2 h2]
  exact hne

/-- Witness of C17: the store after the calls of `main` holds `table1` with its
two records, and the table's `Name` is `table1`. -/
theorem reachable_name_eq_key_witness :
    (runOps Database.empty mainOps).Tables "table1" =
      some { Name := "table1", Columns := mainColumns, Records := [mainRecord1, mainRecord2] } ∧
    (runOps Database.empty mainOps).Tables "users" = none ∧
    Table.Name { Name := "table1", Columns := mainColumns,
                 Records := [mainRecord1, mainRecord2] } = "table1" :=
  ⟨rfl, rfl, (reachable_name_eq_key mainOps).1 "table1"
    { Name := "table1", Columns := mainColumns, Records := [mainRecord1, mainRecord2] } rfl⟩

/-- C18: `PrintRecords` and `FilterRecord` leave the store as it was, for a
present and for an absent table alike; on a present table `PrintRecords`
succeeds and yields all the records of the table in storage order; a second call
of either gives the result of the first. -/
theorem inspection_read_only (db : Database) (name columnName : String) (value : Value) :
    (PrintRecords db name).db = db ∧
    (FilterRecord db name columnName value).db = db ∧
    (∀ table, db.Tables name = some table →
      (PrintRecords db name).out = table.Records ∧ (PrintRecords db name).err = none) ∧
    PrintRecords (PrintRecords db name).db name = PrintRecords db name ∧
    FilterRecord (FilterRecord db name columnName value).db name columnName value =
      FilterRecord db name columnName value := by
  have hp : (PrintRecords db name).db = db := by
    unfold PrintRecords
    split <;> rfl
  have hf : (FilterRecord db name columnName value).db = db := by
    unfold FilterRecord
    split <;> rfl
  refine ⟨hp, hf, ?_, by rw [hp], by rw [hf]⟩
  intro table ht
  simp [PrintRecords, ht]

/-- Witness of C18 on the store of `main` after its insertions. -/
theorem inspection_read_only_witness :
    (PrintRecords mainDb2 "table1").db = mainDb2 ∧
    (FilterRecord mainDb2 "table1" "id" (Value.int 2)).db = mainDb2 ∧
    (PrintRecords mainDb2 "table1").out = [mainRecord1, mainRecord2] ∧
    (PrintRecords (PrintRecords mainDb2 "table1").db "table1").out
      = [mainRecord1, mainRecord2] := by
  have h := inspection_read_only mainDb2 "table1" "id" (Value.int 2)
  have hout := (h.2.2.1
    { Name := "table1", Columns := mainColumns, Records := [mainRecord1, mainRecord2] } rfl).1
  exact ⟨h.1, h.2.1, hout, by rw [h.2.2.2.1]; exact hout⟩

/-! ## Byte length and conflicting columns -/

/-- C19: the length limit of a String column counts the bytes of the string's
UTF-8 encoding. For a String column `c` with `MaxStringLength > 0` and a record
whose only entry for a declared column is a string for `c`, `AddRecord` accepts
exactly when the byte length is at most the limit, and otherwise fails with the
length-exceeded error; and a string of five characters, one of them of two
bytes, is rejected under the limit 5 with that error. -/
theorem AddRecord_length_counts_bytes (db : Database) (name : String) (table : Table)
    (c : Column) (record : Record) (s : String) (h : db.Tables name = some table)
    (hc : c ∈ table.Columns) (hstr : c.DataType = ColumnType.String)
    (hpos : c.MaxStringLength > 0) (hv : record c.Name = some (Value.str s))
    (honly : ∀ col ∈ table.Columns, col ≠ c → record col.Name = none) :
    ((AddRecord db name record).err = none ↔ (s.utf8ByteSize : Int) ≤ c.MaxStringLength) ∧
    ((s.utf8ByteSize : Int) > c.MaxStringLength →
      (AddRecord db name record).err =
        some ("column " ++ c.Name ++ " exceeds maximum length of " ++
          toString c.MaxStringLength)) ∧
    (∃ t : String, (t.length : Int) ≤ lengthColumn.MaxStringLength ∧
      (t.utf8ByteSize : Int) > lengthColumn.MaxStringLength ∧
      (AddRecord lengthDb "T" (Record.ofList [("value", Value.str t)])).err
        = some "column value exceeds maximum length of 5") := by
  rw [AddRecord_err_present db name table record h, loop_only_entry table.Columns c record hc honly]
  unfold AddRecord.checkColumn
  simp only [hv, hstr, if_true, hpos, true_and]
  refine ⟨?_, ?_, ⟨"héllo", by decide, by decide, rfl⟩⟩
  · by_cases hgt : (s.utf8ByteSize : Int) > c.MaxStringLength
    · simp [hgt]
    · simp [hgt, not_lt.mp hgt]
  · intro hgt
    simp [hgt]

/-- Witness of C19: under the limit 5 the string `héllo`, of 5 characters and 6
bytes, is accepted exactly when 6 is at most 5. -/
theorem AddRecord_length_counts_bytes_witness :
    String.length "héllo" = 5 ∧ String.utf8ByteSize "héllo" = 6 ∧
    ((AddRecord lengthDb "T" (Record.ofList [("value", Value.str "héllo")])).err = none ↔
      (String.utf8ByteSize "héllo" : Int) ≤ lengthColumn.MaxStringLength) ∧
    (AddRecord lengthDb "T" (Record.ofList [("value", Value.str "héllo")])).err
      = some "column value exceeds maximum length of 5" :=
  ⟨by decide, by decide,
   (AddRecord_length_counts_bytes lengthDb "T"
      { Name := "T", Columns := [lengthColumn], Records := [] } lengthColumn
      (Record.ofList [("value", Value.str "héllo")]) "héllo" rfl (by decide) rfl (by decide) rfl
      (lengthColumn_only _)).1,
   (AddRecord_length_counts_bytes lengthDb "T"
      { Name := "T", Columns := [lengthColumn], Records := [] } lengthColumn
      (Record.ofList [("value", Value.str "héllo")]) "héllo" rfl (by decide) rfl (by decide) rfl
      (lengthColumn_only _)).2.1 (by decide)⟩

theorem first_failure_position (columns : List Column) (record : Record) (e : String)
    (pre : List Column) (col : Column) (post : List Column)
    (hsplit : columns = pre ++ col :: post)
    (hpre : ∀ c ∈ pre, AddRecord.checkColumn c record = none)
    (hfail : AddRecord.checkColumn col record = some e)
    (cm : Column) (em : String) (hmem : cm ∈ columns)
    (hcm : AddRecord.checkColumn cm record = some em) :
    (col = cm ∧ e = em) ∨ cm ∈ post := by
  rw [hsplit] at hmem
  rcases List.mem_append.mp hmem with hin | hin
  · rw [hpre cm hin] at hcm
    exact Option.noConfusion hcm
  · rcases List.mem_cons.mp hin with heq | hpost
    · left
      subst heq
      rw [hfail] at hcm
      exact ⟨rfl, Option.some.inj hcm⟩
    · exact Or.inr hpost

/-- C20, as amended: when the column list of a present table has two columns of
the same name `k`, one of type String and one of type Int, every record with an
entry for `k` is rejected by `AddRecord`, whatever the value, and the store is
unchanged. The value fails one of the two columns with a type mismatch. The
error returned is that of the first column, in column-list order, whose check
the record fails (every column before it passes): it is the type-mismatch error
naming `k` of the column named `k` that the value mismatches, unless that
column comes later in the column list than the first failing column. So only
records without the key `k` are inserted. `CreateTable` and `UpdateTable` accept
such a column list. -/
theorem AddRecord_conflicting_columns (db : Database) (name k : String) (table : Table)
    (c1 c2 : Column) (record : Record) (v : Value) (h : db.Tables name = some table)
    (h1 : c1 ∈ table.Columns) (h2 : c2 ∈ table.Columns) (hk1 : c1.Name = k) (hk2 : c2.Name = k)
    (hs : c1.DataType = ColumnType.String) (hi : c2.DataType = ColumnType.Int)
    (hv : record k = some v) :
    (FailsWith c1 v ("column " ++ k ++ " expects a string value") ∨
      FailsWith c2 v ("column " ++ k ++ " expects an int value")) ∧
    (∃ e pre col post w, (AddRecord db name record).err = some e ∧
      table.Columns = pre ++ col :: post ∧
      (∀ c ∈ pre, ∀ u, record c.Name = some u → PassesCheck c u) ∧
      record col.Name = some w ∧ FailsWith col w e ∧
      (((col = c1 ∧ e = "column " ++ k ++ " expects a string value") ∨
        (col = c2 ∧ e = "column " ++ k ++ " expects an int value")) ∨
       ((c1 ∈ post ∧ FailsWith c1 v ("column " ++ k ++ " expects a string value")) ∨
        (c2 ∈ post ∧ FailsWith c2 v ("column " ++ k ++ " expects an int value"))))) ∧
    (AddRecord db name record).db = db ∧
    (∀ r : Record, (AddRecord db name r).err = none → r k = none) ∧
    (UpdateTable db name table.Columns).err = none ∧
    (∀ (db0 : Database) (name0 : String), db0.Tables name0 = none →
      (CreateTable db0 name0 table.Columns).err = none) := by
  have hrej : ∀ (r : Record) (w : Value), r k = some w →
      AddRecord.loop table.Columns r ≠ none := by
    intro r w hw hnone
    have hvalid := (loop_eq_none_iff table.Columns r).mp hnone
    obtain ⟨s, hstr, _⟩ := (hvalid c1 h1 w (by rw [hk1]; exact hw)).1 hs
    obtain ⟨i, hint, _⟩ := (hvalid c2 h2 w (by rw [hk2]; exact hw)).2 hi
    rw [hstr] at hint
    exact Value.noConfusion hint
  have hmis : FailsWith c1 v ("column " ++ k ++ " expects a string value") ∨
      FailsWith c2 v ("column " ++ k ++ " expects an int value") := by
    by_cases hstr : ∃ s, v = Value.str s
    · obtain ⟨s, rfl⟩ := hstr
      right
      exact Or.inr (Or.inr (Or.inl ⟨hi, fun i hx => Value.noConfusion hx, by rw [hk2]⟩))
    · left
      exact Or.inl ⟨hs, fun s hx => hstr ⟨s, hx⟩, by rw [hk1]⟩
  refine ⟨hmis, ?_, ?_, ?_, ?_, ?_⟩
  · cases hl : AddRecord.loop table.Columns record with
    | none => exact absurd hl (hrej record v hv)
    | some e =>
      obtain ⟨pre, col, post, hsplit, hpre, hfail⟩ := loop_eq_some_split table.Columns record e hl
      obtain ⟨w, hw, hf⟩ := (checkColumn_eq_some_iff col record e).mp hfail
      refine ⟨e, pre, col, post, w, ?_, hsplit, ?_, hw, hf, ?_⟩
      · rw [AddRecord_err_present db name table record h, hl]
      · intro c hc
        exact (checkColumn_eq_none_iff c record).mp (hpre c hc)
      · rcases hmis with hm | hm
        · have hcm := (checkColumn_eq_some_iff c1 record _).mpr ⟨v, by rw [hk1]; exact hv, hm⟩
          rcases first_failure_position table.Columns record e pre col post hsplit hpre hfail
            c1 _ h1 hcm with hpos | hpos
          · exact Or.inl (Or.inl hpos)
          · exact Or.inr (Or.inl ⟨hpos, hm⟩)
        · have hcm := (checkColumn_eq_some_iff c2 record _).mpr ⟨v, by rw [hk2]; exact hv, hm⟩
          rcases first_failure_position table.Columns record e pre col post hsplit hpre hfail
            c2 _ h2 hcm with hpos | hpos
          · exact Or.inl (Or.inr hpos)
          · exact Or.inr (Or.inr ⟨hpos, hm⟩)
  · rw [AddRecord_present db name table record h]
    cases hl : AddRecord.loop table.Columns record with
    | none => exact absurd hl (hrej record v hv)
    | some e => rfl
  · intro r hok
    rw [AddRecord_err_present db name table r h] at hok
    cases hr : r k with
    | none => rfl
    | some w => exact absurd hok (hrej r w hr)
  · simp [UpdateTable, h]
  · intro db0 name0 h0
    simp [CreateTable, h0]

/-- Witness of C20 on a table with a String and an Int column both named `k`:
the record `{k: 5}` is rejected with the type mismatch of the String column,
which is the first column. -/
theorem AddRecord_conflicting_columns_witness :
    conflictDb.Tables "T" = some { Name := "T", Columns := conflictColumns, Records := [] } ∧
    (AddRecord conflictDb "T" (Record.ofList [("k", Value.int 5)])).err
      = some "column k expects a string value" ∧
    (AddRecord conflictDb "T" (Record.ofList [("k", Value.int 5)])).db = conflictDb ∧
    ∃ e pre col post w,
      (AddRecord conflictDb "T" (Record.ofList [("k", Value.int 5)])).err = some e ∧
      conflictColumns = pre ++ col :: post ∧
      (∀ c ∈ pre, ∀ u, Record.ofList [("k", Value.int 5)] c.Name = some u → PassesCheck c u) ∧
      Record.ofList [("k", Value.int 5)] col.Name = some w ∧ FailsWith col w e := by
  have h := AddRecord_conflicting_columns conflictDb "T" "k"
    { Name := "T", Columns := conflictColumns, Records := [] }
    { Name := "k", DataType := ColumnType.String, MaxStringLength := 1, MaxIntValue := 0 }
    { Name := "k", DataType := ColumnType.Int, MaxStringLength := 0, MaxIntValue := 100 }
    (Record.ofList [("k", Value.int 5)]) (Value.int 5) rfl (by decide) (by decide) rfl rfl
    rfl rfl rfl
  obtain ⟨e, pre, col, post, w, he, hsplit, hpre, hw, hf, _⟩ := h.2.1
  exact ⟨rfl, rfl, h.2.2.1, e, pre, col, post, w, he, hsplit, hpre, hw, hf⟩

/-- Counterexample to C20 as stated: the table has a String column `k` of at
most one byte and an Int column `k`; the record `{k: "ab"}` is rejected with the
length-exceeded error of the first column, which is neither type-mismatch error
naming `k`. -/
theorem AddRecord_conflicting_columns_counterexample :
    ¬ (∀ (db : Database) (name k : String) (table : Table) (c1 c2 : Column) (record : Record)
        (v : Value), db.Tables name = some table → c1 ∈ table.Columns → c2 ∈ table.Columns →
        c1.Name = k → c2.Name = k → c1.DataType = ColumnType.String →
        c2.DataType = ColumnType.Int → record k = some v →
        (AddRecord db name record).err = some ("column " ++ k ++ " expects a string value") ∨
        (AddRecord db name record).err = some ("column " ++ k ++ " expects an int value")) := by
  intro hall
  have h := hall conflictDb "T" "k"
    { Name := "T", Columns := conflictColumns, Records := [] }
    { Name := "k", DataType := ColumnType.String, MaxStringLength := 1, MaxIntValue := 0 }
    { Name := "k", DataType := ColumnType.Int, MaxStringLength := 0, MaxIntValue := 100 }
    (Record.ofList [("k", Value.str "ab")]) (Value.str "ab") rfl (by decide) (by decide) rfl rfl
    rfl rfl rfl
  have herr : (AddRecord conflictDb "T" (Record.ofList [("k", Value.str "ab")])).err
      = some "column k exceeds maximum length of 1" := rfl
  rw [herr] at h
  revert h
  decide

end SQLDB
